import Mathlib

/-!
Shallow embedding of the assembly-listing classifier, location tracker and
filtered renderer (source: src/asm/ast.rs).

Conventions of the embedding:
* Rust strings are Lean `String` values; operations that the source performs
  byte-wise on ASCII data are modelled on the underlying character list.
* Rust `char::is_whitespace` is modelled on its ASCII fragment (space, tab,
  line feed, vertical tab, form feed, carriage return); all inputs of
  interest are ASCII.
* A Rust constructor returning `Option<Self>` that can also panic (via
  `unwrap` or an out-of-bounds index) is embedded as `RustRes`: `panic` for
  the abort, `none` for the Rust `None`, `some` for success.
* `usize` values are `Nat`s; `str::parse::<usize>` is modelled with the
  64-bit overflow check made explicit.
-/

/-- Result of a fallible Rust constructor: `panic` models an `unwrap`
failure or an out-of-bounds index, `none` models returning `None`,
`some` models returning `Some`. -/
inductive RustRes (α : Type) where
  | panic : RustRes α
  | none : RustRes α
  | some : α → RustRes α
deriving DecidableEq, Repr

/-- ASCII fragment of Rust `char::is_whitespace`. -/
def isWsChar (c : Char) : Bool :=
  c.toNat = 32 || c.toNat = 9 || c.toNat = 10 || c.toNat = 13 ||
  c.toNat = 11 || c.toNat = 12

/-- Accumulator-based whitespace tokenizer over a character list, modelling
Rust `str::split_whitespace` (empty tokens are never produced). -/
def splitWsAux : List Char → List Char → List (List Char)
  | [], acc => if acc = [] then [] else [acc.reverse]
  | c :: cs, acc =>
    if isWsChar c then
      if acc = [] then splitWsAux cs [] else acc.reverse :: splitWsAux cs []
    else splitWsAux cs (c :: acc)

/-- Whitespace tokens of a character list. -/
def splitWs (cs : List Char) : List (List Char) := splitWsAux cs []

/-- Rust `s.split_whitespace()` collected into a list of strings. -/
def tokens (s : String) : List String := (splitWs s.data).map String.mk

/-- Rust `s.split(sep)` over a character list: splits at every occurrence of
`sep`, keeping empty pieces; always returns at least one piece. -/
def splitOnChar (sep : Char) : List Char → List (List Char)
  | [] => [[]]
  | c :: cs =>
    if c = sep then
      [] :: splitOnChar sep cs
    else
      match splitOnChar sep cs with
      | [] => [[c]]
      | p :: ps => (c :: p) :: ps

/-- Rust `s.starts_with(t)`. -/
def strStartsWith (s t : String) : Bool := t.data.isPrefixOf s.data

/-- Rust `s.ends_with(t)`. -/
def strEndsWith (s t : String) : Bool := t.data.isSuffixOf s.data

/-- ASCII decimal digit test, as used by `usize` parsing. -/
def isDigitChar (c : Char) : Bool := 48 ≤ c.toNat && c.toNat ≤ 57

/-- Numeric value of an ASCII decimal digit. -/
def digitVal (c : Char) : Nat := c.toNat - 48

/-- Drops one leading plus sign, as Rust integer parsing allows. -/
def stripPlus (cs : List Char) : List Char :=
  match cs with
  | [] => []
  | c :: rest => if c = '+' then rest else c :: rest

/-- Model of Rust `str::parse::<usize>`: an optional leading plus sign, then
a nonempty run of ASCII digits whose value fits in 64 bits. -/
def parseUsize (s : String) : Option Nat :=
  if s.data = [] then none
  else
    let ds := stripPlus s.data
    if ds = [] then none
    else if ds.all isDigitChar then
      let v := ds.foldl (fun a c => a * 10 + digitVal c) 0
      if v < 2 ^ 64 then some v else none
    else none

/-- The ASCII character of a decimal digit. -/
def decDigit (d : Nat) : Char :=
  if d = 0 then '0' else if d = 1 then '1' else if d = 2 then '2'
  else if d = 3 then '3' else if d = 4 then '4' else if d = 5 then '5'
  else if d = 6 then '6' else if d = 7 then '7' else if d = 8 then '8'
  else '9'

/-- Fuel-driven most-significant-first decimal digits of a positive number;
`natChars n n` is exact since a number needs at most `n` division steps. -/
def natChars : Nat → Nat → List Char
  | 0, _ => []
  | fuel + 1, n =>
    if n = 0 then [] else natChars fuel (n / 10) ++ [decDigit (n % 10)]

/-- Decimal character representation of a natural number, as Rust
`format!` renders a `usize`. -/
def natToChars (n : Nat) : List Char :=
  if n = 0 then ['0'] else natChars n n

/-- Decimal string of a natural number. -/
def natToString (n : Nat) : String := ⟨natToChars n⟩

/-- Joins strings with single spaces, modelling Rust `Vec::join(" ")`. -/
def joinSpace : List String → String
  | [] => ""
  | [a] => a
  | a :: rest => a ++ " " ++ joinSpace rest

/-- Display options (source: options consumed by `should_print`/`format`). -/
structure Options where
  directives : Bool
  comments : Bool
  verbose : Bool
deriving DecidableEq, Repr

/-- Source file reference (source: `struct File`). -/
structure File where
  path : String
  index : Nat
deriving DecidableEq, Repr

/-- Source location (source: `struct Loc`). -/
structure Loc where
  file_index : Nat
  file_line : Nat
  file_column : Nat
deriving DecidableEq, Repr

/-- Asm label (source: `struct Label`). -/
structure Label where
  id : String
  rust_loc_off : Option Loc
deriving DecidableEq, Repr

/-- Generic directive (source: `struct GenericDirective`). -/
structure GenericDirective where
  string : String
deriving DecidableEq, Repr

/-- Asm directive (source: `enum Directive`). -/
inductive Directive where
  | file : File → Directive
  | loc : Loc → Directive
  | generic : GenericDirective → Directive
deriving DecidableEq, Repr

/-- Asm comment (source: `struct Comment`). -/
structure Comment where
  string : String
deriving DecidableEq, Repr

/-- Asm instruction (source: `struct Instruction`). -/
structure Instruction where
  instr : String
  args : List String
  rust_loc_off : Option Loc
deriving DecidableEq, Repr

/-- Statement (source: `enum Statement`). -/
inductive Statement where
  | label : Label → Statement
  | directive : Directive → Statement
  | instruction : Instruction → Statement
  | comment : Comment → Statement
deriving DecidableEq, Repr

/-- Source: `Label::new`. Succeeds exactly on lines ending in a colon; the
id is the line with its final character removed; the current location is
stored unchanged. -/
def Label.new (s : String) (rust_loc_off : Option Loc) : Option Label :=
  if strEndsWith s ":" then
    Option.some ⟨⟨s.data.dropLast⟩, rust_loc_off⟩
  else Option.none

/-- Source: `Label::rust_loc`. -/
def Label.rust_loc (l : Label) : Option Loc := l.rust_loc_off

/-- Source: `Label::should_print`. -/
def Label.should_print (l : Label) (_opts : Options) : Bool :=
  !(strStartsWith l.id "Lcfi") && !(strStartsWith l.id "Ltmp") &&
  !(strStartsWith l.id "Lfunc_end")

/-- Source: `Label::format`. -/
def Label.format (l : Label) (_opts : Options) : String :=
  "  " ++ l.id ++ ":"

/-- Source: `File::new`. Returns `RustRes.none` on lines not starting with
`.file`; otherwise the path is the piece between the first and second quote
(`s.split(matchQuote).nth(1).unwrap()`) and the index is the parsed second
whitespace token; both `unwrap`s and the parse `unwrap` panic on failure. -/
def File.new (s : String) : RustRes File :=
  if strStartsWith s ".file" then
    match (splitOnChar '"' s.data).get? 1 with
    | Option.none => RustRes.panic
    | Option.some pathCs =>
      match (tokens s).get? 1 with
      | Option.none => RustRes.panic
      | Option.some idxTok =>
        match parseUsize idxTok with
        | Option.none => RustRes.panic
        | Option.some idx => RustRes.some ⟨⟨pathCs⟩, idx⟩
  else RustRes.none

/-- Source: `File::rust_loc`. -/
def File.rust_loc (_f : File) : Option Loc := Option.none

/-- Source: `File::format`. -/
def File.format (f : File) (_opts : Options) : String :=
  ".file " ++ natToString f.index ++ " \"" ++ f.path ++ "\""

/-- Source: `Loc::new`. Returns `RustRes.none` on lines not starting with
`.loc`; otherwise the 2nd whitespace token is the file index, the 3rd the
line, the 4th (defaulting to the string 0) the column; a missing 2nd or 3rd
token or a failed parse panics. -/
def Loc.new (s : String) : RustRes Loc :=
  if strStartsWith s ".loc" then
    match tokens s with
    | _t0 :: t1 :: t2 :: rest =>
      let colTok := match rest with
        | [] => "0"
        | t3 :: _ => t3
      match parseUsize t1, parseUsize t2, parseUsize colTok with
      | Option.some a, Option.some b, Option.some c => RustRes.some ⟨a, b, c⟩
      | _, _, _ => RustRes.panic
    | _ => RustRes.panic
  else RustRes.none

/-- Source: `Loc::rust_loc` (a location directive carries no attached
location of its own). -/
def Loc.rust_loc (_l : Loc) : Option Loc := Option.none

/-- Source: `Loc::format`. -/
def Loc.format (l : Loc) (_opts : Options) : String :=
  ".loc " ++ natToString l.file_index ++ " " ++ natToString l.file_line ++
  " " ++ natToString l.file_column

/-- Source: `GenericDirective::new`. -/
def GenericDirective.new (s : String) : Option GenericDirective :=
  if strStartsWith s "." then Option.some ⟨s⟩ else Option.none

/-- Source: `GenericDirective::rust_loc`. -/
def GenericDirective.rust_loc (_g : GenericDirective) : Option Loc := Option.none

/-- Source: `GenericDirective::format`. -/
def GenericDirective.format (g : GenericDirective) (_opts : Options) : String :=
  g.string

/-- Source: `Directive::new`. Tries `File::new`, then `Loc::new`, then
`GenericDirective::new` (whose `unwrap` cannot fail under the leading-dot
guard, but is embedded faithfully). -/
def Directive.new (s : String) : RustRes Directive :=
  if strStartsWith s "." then
    match File.new s with
    | RustRes.panic => RustRes.panic
    | RustRes.some f => RustRes.some (Directive.file f)
    | RustRes.none =>
      match Loc.new s with
      | RustRes.panic => RustRes.panic
      | RustRes.some l => RustRes.some (Directive.loc l)
      | RustRes.none =>
        match GenericDirective.new s with
        | Option.some g => RustRes.some (Directive.generic g)
        | Option.none => RustRes.panic
  else RustRes.none

/-- Source: `Directive::rust_loc`. -/
def Directive.rust_loc (d : Directive) : Option Loc :=
  match d with
  | Directive.file f => f.rust_loc
  | Directive.loc l => l.rust_loc
  | Directive.generic g => g.rust_loc

/-- Source: `Directive::should_print`. -/
def Directive.should_print (_d : Directive) (opts : Options) : Bool :=
  opts.directives

/-- Source: `Directive::format`. -/
def Directive.format (d : Directive) (opts : Options) : String :=
  match d with
  | Directive.file f => f.format opts
  | Directive.loc l => l.format opts
  | Directive.generic g => g.format opts

/-- Source: `Comment::new`. -/
def Comment.new (s : String) : Option Comment :=
  if strStartsWith s ";" then Option.some ⟨s⟩ else Option.none

/-- Source: `Comment::rust_loc`. -/
def Comment.rust_loc (_c : Comment) : Option Loc := Option.none

/-- Source: `Comment::should_print`. -/
def Comment.should_print (_c : Comment) (opts : Options) : Bool :=
  opts.comments

/-- Source: `Comment::format`. -/
def Comment.format (c : Comment) (_opts : Options) : String :=
  "  " ++ c.string

/-- Source: `Instruction::new`. The demangling capability is passed as a
total function `dem`. The first whitespace token is the mnemonic (its
`unwrap` panics on a token-free line); when the mnemonic is the word call,
the code indexes `args[0]` unconditionally, so an operand-free call line
panics; otherwise `args[0]` is replaced by its demangling. -/
def Instruction.new (dem : String → String) (s : String)
    (rust_loc_off : Option Loc) : RustRes Instruction :=
  match tokens s with
  | [] => RustRes.panic
  | instr :: args =>
    if instr = "call" then
      match args with
      | [] => RustRes.panic
      | a0 :: rest => RustRes.some ⟨instr, dem a0 :: rest, rust_loc_off⟩
    else RustRes.some ⟨instr, args, rust_loc_off⟩

/-- Source: `Instruction::rust_loc`. -/
def Instruction.rust_loc (i : Instruction) : Option Loc := i.rust_loc_off

/-- Source: `Instruction::should_print`. -/
def Instruction.should_print (_i : Instruction) (_opts : Options) : Bool :=
  true

/-- Rust `{:?}` rendering of `Option<(usize, usize)>`. -/
def fmtOptPair (o : Option (Nat × Nat)) : String :=
  match o with
  | Option.none => "None"
  | Option.some (a, b) =>
    "Some((" ++ natToString a ++ ", " ++ natToString b ++ "))"

/-- Source: `Instruction::format`. -/
def Instruction.format (i : Instruction) (opts : Options) : String :=
  if opts.verbose then
    "    " ++ i.instr ++ " " ++ joinSpace i.args ++ " | rloc: " ++
    fmtOptPair (i.rust_loc.map (fun v => (v.file_index, v.file_line)))
  else
    "    " ++ i.instr ++ " " ++ joinSpace i.args

/-- Source: `Statement::should_print`. -/
def Statement.should_print (st : Statement) (opts : Options) : Bool :=
  match st with
  | Statement.label l => l.should_print opts
  | Statement.directive d => d.should_print opts
  | Statement.instruction i => i.should_print opts
  | Statement.comment c => c.should_print opts

/-- Source: `Statement::format`. -/
def Statement.format (st : Statement) (opts : Options) : String :=
  match st with
  | Statement.label l => l.format opts
  | Statement.directive d => d.format opts
  | Statement.instruction i => i.format opts
  | Statement.comment c => c.format opts

/-- The per-variant attached location, as computed by the inner match of
`Statement::rust_loc`. -/
def Statement.stmt_loc (st : Statement) : Option Loc :=
  match st with
  | Statement.label l => l.rust_loc
  | Statement.directive d => d.rust_loc
  | Statement.instruction i => i.rust_loc
  | Statement.comment c => c.rust_loc

/-- Source: `Statement::rust_loc`. Resolves the attached location against a
file: absent location or a differing file index gives no line. -/
def Statement.rust_loc (st : Statement) (file : File) : Option Nat :=
  match st.stmt_loc with
  | Option.none => Option.none
  | Option.some loc =>
    if loc.file_index ≠ file.index then Option.none
    else Option.some loc.file_line

/-- Modelled from the spec: the classification driver (the function-building
loop lives outside src/asm/ast.rs). It tries the constructors in the spec's
precedence order, Label, Directive, Comment, Instruction; each constructor
is the one from the source, so a constructor panic aborts classification,
which we embed as `Option.none`. -/
def classify (dem : String → String) (s : String) (cur : Option Loc) :
    Option Statement :=
  match Label.new s cur with
  | Option.some l => Option.some (Statement.label l)
  | Option.none =>
    match Directive.new s with
    | RustRes.panic => Option.none
    | RustRes.some d => Option.some (Statement.directive d)
    | RustRes.none =>
      match Comment.new s with
      | Option.some c => Option.some (Statement.comment c)
      | Option.none =>
        match Instruction.new dem s cur with
        | RustRes.some i => Option.some (Statement.instruction i)
        | _ => Option.none

/-- Modelled from the spec: the caller-threaded current location (spec
section 5): after a LocDirective is classified the tracked location becomes
its payload; every other statement leaves it unchanged. Builds the ordered
statement sequence, aborting on a classification failure. -/
def buildStatements (dem : String → String) :
    List String → Option Loc → Option (List Statement)
  | [], _ => Option.some []
  | l :: ls, cur =>
    match classify dem l cur with
    | Option.none => Option.none
    | Option.some st =>
      let cur2 := match st with
        | Statement.directive (Directive.loc lo) => Option.some lo
        | _ => cur
      match buildStatements dem ls cur2 with
      | Option.none => Option.none
      | Option.some sts => Option.some (st :: sts)

/-- Modelled from the spec: rendering keeps exactly the statements accepted
by `should_print` and formats each with `format`. -/
def renderAll (dem : String → String) (opts : Options)
    (lines : List String) : Option (List String) :=
  (buildStatements dem lines Option.none).map
    (fun sts =>
      (sts.filter (fun st => st.should_print opts)).map
        (fun st => st.format opts))

/-- The demangler of the end-to-end example: maps the mangled name to the
word bar and everything else to itself. -/
def demC3 : String → String :=
  fun s => if s = "_ZN3foo3barE" then "bar" else s

/-- The eight raw input lines of the end-to-end example. -/
def c3Lines : List String :=
  [".file 1 \"main.rs\"", ".loc 1 1 0", "LBB0:", "push rbp",
   ".loc 1 2 0", "call _ZN3foo3barE", "Ltmp0:", "ret"]

/-- A malformed file directive: no quote piece, a missing index token, or an
index token that does not parse as a usize. -/
def fileMalformed (s : String) : Bool :=
  ((splitOnChar '"' s.data).get? 1).isNone ||
  (match (tokens s).get? 1 with
   | Option.none => true
   | Option.some t => (parseUsize t).isNone)

/-- A malformed location directive: fewer than three whitespace tokens, or a
file-index, line or (present) column token that does not parse as a usize. -/
def locMalformed (s : String) : Bool :=
  match tokens s with
  | _ :: t1 :: t2 :: rest =>
    (parseUsize t1).isNone || (parseUsize t2).isNone ||
    (match rest with
     | [] => false
     | t3 :: _ => (parseUsize t3).isNone)
  | _ => true

/-- An instruction line on which `Instruction::new` panics: no tokens at
all, or the single mnemonic call with no operand. -/
def instrPanics (s : String) : Bool :=
  match tokens s with
  | [] => true
  | m :: args => m == "call" && args.isEmpty

/-! Helper lemmas about the constructors. -/

theorem label_new_none {s : String} (cur : Option Loc)
    (h : strEndsWith s ":" = false) : Label.new s cur = Option.none := by
  simp [Label.new, h]

theorem directive_new_of_not_dot {s : String}
    (h : strStartsWith s "." = false) : Directive.new s = RustRes.none := by
  simp [Directive.new, h]

theorem comment_new_of_not_semi {s : String}
    (h : strStartsWith s ";" = false) : Comment.new s = Option.none := by
  simp [Comment.new, h]

theorem file_new_of_not_file {s : String}
    (h : strStartsWith s ".file" = false) : File.new s = RustRes.none := by
  simp [File.new, h]

theorem loc_new_of_not_loc {s : String}
    (h : strStartsWith s ".loc" = false) : Loc.new s = RustRes.none := by
  simp [Loc.new, h]

/-- Claim C7 (confirmed): every line ending in a colon classifies as a Label
whose id is the line with its final character removed, and the tracked
current location is stored unchanged. -/
theorem c7_label (dem : String → String) (s : String) (cur : Option Loc)
    (h : strEndsWith s ":" = true) :
    classify dem s cur =
      Option.some (Statement.label ⟨⟨s.data.dropLast⟩, cur⟩) := by
  simp [classify, Label.new, h]

/-- Witness for C7 at the concrete line of the example. -/
theorem c7_witness :
    classify (fun s => s) "LBB0:" (Option.some ⟨1, 1, 0⟩) =
      Option.some (Statement.label ⟨"LBB0", Option.some ⟨1, 1, 0⟩⟩) := by
  exact c7_label (fun s => s) "LBB0:" (Option.some ⟨1, 1, 0⟩) (by decide)

/-- Claim C8 (confirmed): a Label is suppressed exactly when its id starts
with one of the reserved prefixes, independent of the options; a Directive
prints iff the directives option is set, a Comment iff the comments option
is set, and an Instruction always prints. -/
theorem c8_should_print (opts : Options) (l : Label) (d : Directive)
    (i : Instruction) (c : Comment) :
    (Statement.should_print (Statement.label l) opts = false ↔
      (strStartsWith l.id "Lcfi" = true ∨ strStartsWith l.id "Ltmp" = true ∨
       strStartsWith l.id "Lfunc_end" = true)) ∧
    Statement.should_print (Statement.directive d) opts = opts.directives ∧
    Statement.should_print (Statement.comment c) opts = opts.comments ∧
    Statement.should_print (Statement.instruction i) opts = true := by
  refine ⟨?_, rfl, rfl, rfl⟩
  simp only [Statement.should_print, Label.should_print]
  cases h1 : strStartsWith l.id "Lcfi" <;>
    cases h2 : strStartsWith l.id "Ltmp" <;>
      cases h3 : strStartsWith l.id "Lfunc_end" <;> simp

/-- Claim C9 (confirmed): the single-token line call makes the instruction
constructor index an empty operand vector, so it panics rather than
producing an Instruction; classification of that line aborts. -/
theorem c9_call_panics (dem : String → String) (cur : Option Loc) :
    Instruction.new dem "call" cur = RustRes.panic ∧
    classify dem "call" cur = Option.none :=
  ⟨rfl, rfl⟩

/-- Claim C10 (confirmed): every Directive (a LocDirective included) and
every Comment resolves to no source line against any file; a statement that
resolves to a line is a Label or an Instruction. -/
theorem c10_loc_resolution (d : Directive) (c : Comment) (f : File)
    (st : Statement) :
    Statement.rust_loc (Statement.directive d) f = Option.none ∧
    Statement.rust_loc (Statement.comment c) f = Option.none ∧
    (∀ n, Statement.rust_loc st f = Option.some n →
      (∃ l, st = Statement.label l) ∨
      (∃ i, st = Statement.instruction i)) := by
  refine ⟨?_, rfl, ?_⟩
  · cases d <;> rfl
  · intro n hn
    cases st with
    | label l => exact Or.inl ⟨l, rfl⟩
    | instruction i => exact Or.inr ⟨i, rfl⟩
    | directive d2 =>
      cases d2 <;> simp [Statement.rust_loc, Statement.stmt_loc,
        Directive.rust_loc, File.rust_loc, Loc.rust_loc,
        GenericDirective.rust_loc] at hn
    | comment c2 =>
      simp [Statement.rust_loc, Statement.stmt_loc, Comment.rust_loc] at hn

/-- Witness for C10: a LocDirective statement never resolves, and a
resolving statement is an Instruction. -/
theorem c10_witness :
    Statement.rust_loc (Statement.directive (Directive.loc ⟨1, 2, 3⟩))
      ⟨"a.rs", 1⟩ = Option.none ∧
    ((∃ l, (Statement.instruction ⟨"ret", [], Option.some ⟨1, 7, 0⟩⟩ :
        Statement) = Statement.label l) ∨
     (∃ i, (Statement.instruction ⟨"ret", [], Option.some ⟨1, 7, 0⟩⟩ :
        Statement) = Statement.instruction i)) :=
  ⟨(c10_loc_resolution (Directive.loc ⟨1, 2, 3⟩) ⟨";x"⟩ ⟨"a.rs", 1⟩
      (Statement.instruction ⟨"ret", [], Option.some ⟨1, 7, 0⟩⟩)).1,
   (c10_loc_resolution (Directive.loc ⟨1, 2, 3⟩) ⟨";x"⟩ ⟨"a.rs", 1⟩
      (Statement.instruction ⟨"ret", [], Option.some ⟨1, 7, 0⟩⟩)).2.2 7 rfl⟩

/-- Claim C2 (confirmed): location resolution returns none when no location
is attached, returns none when the attached location names a different file
index, and otherwise returns the attached line. -/
theorem c2_resolution (st : Statement) (f : File) :
    (Statement.stmt_loc st = Option.none →
      Statement.rust_loc st f = Option.none) ∧
    (∀ l, Statement.stmt_loc st = Option.some l → l.file_index ≠ f.index →
      Statement.rust_loc st f = Option.none) ∧
    (∀ l, Statement.stmt_loc st = Option.some l → l.file_index = f.index →
      Statement.rust_loc st f = Option.some l.file_line) := by
  refine ⟨?_, ?_, ?_⟩
  · intro h; simp [Statement.rust_loc, h]
  · intro l hl hne; simp [Statement.rust_loc, hl, hne]
  · intro l hl he; simp [Statement.rust_loc, hl, he]

/-- Witness for C2: absent location, mismatched file index, and matching
file index, each at a concrete statement. -/
theorem c2_witness :
    Statement.rust_loc (Statement.comment ⟨";c"⟩) ⟨"m.rs", 1⟩ =
      Option.none ∧
    Statement.rust_loc (Statement.instruction ⟨"ret", [], Option.some
      ⟨2, 9, 0⟩⟩) ⟨"m.rs", 1⟩ = Option.none ∧
    Statement.rust_loc (Statement.instruction ⟨"ret", [], Option.some
      ⟨1, 9, 0⟩⟩) ⟨"m.rs", 1⟩ = Option.some 9 :=
  ⟨(c2_resolution (Statement.comment ⟨";c"⟩) ⟨"m.rs", 1⟩).1 rfl,
   (c2_resolution (Statement.instruction ⟨"ret", [], Option.some ⟨2, 9, 0⟩⟩)
      ⟨"m.rs", 1⟩).2.1 ⟨2, 9, 0⟩ rfl (by decide),
   (c2_resolution (Statement.instruction ⟨"ret", [], Option.some ⟨1, 9, 0⟩⟩)
      ⟨"m.rs", 1⟩).2.2 ⟨1, 9, 0⟩ rfl rfl⟩

/-- Claim C5 (confirmed): on a well-formed location directive the 2nd token
is the file index, the 3rd the line, the 4th the column when present, and
the column defaults to 0 when absent. -/
theorem c5_loc_parsing (s t0 t1 t2 : String) (rest : List String)
    (a b : Nat) (hs : strStartsWith s ".loc" = true)
    (ht : tokens s = t0 :: t1 :: t2 :: rest)
    (ha : parseUsize t1 = Option.some a)
    (hb : parseUsize t2 = Option.some b) :
    (rest = [] → Loc.new s = RustRes.some ⟨a, b, 0⟩) ∧
    (∀ t3 r c, rest = t3 :: r → parseUsize t3 = Option.some c →
      Loc.new s = RustRes.some ⟨a, b, c⟩) := by
  have h0 : parseUsize "0" = Option.some 0 := by decide
  constructor
  · intro hrest; subst hrest
    simp [Loc.new, hs, ht, ha, hb, h0]
  · intro t3 r c hrest hc; subst hrest
    simp [Loc.new, hs, ht, ha, hb, hc]

/-- Witness for C5 at the two concrete directives of the spec. -/
theorem c5_witness :
    Loc.new ".loc 1 10 5" = RustRes.some ⟨1, 10, 5⟩ ∧
    Loc.new ".loc 1 10" = RustRes.some ⟨1, 10, 0⟩ :=
  ⟨(c5_loc_parsing ".loc 1 10 5" ".loc" "1" "10" ["5"] 1 10 (by decide)
      (by decide) (by decide) (by decide)).2 "5" [] 5 rfl (by decide),
   (c5_loc_parsing ".loc 1 10" ".loc" "1" "10" [] 1 10 (by decide)
      (by decide) (by decide) (by decide)).1 rfl⟩

/-- Counterexample for C3: rendering the example does not produce the four
lines the claim lists. -/
theorem c3_counterexample :
    renderAll demC3 ⟨false, false, false⟩ c3Lines ≠
      Option.some ["LBB0:", "  push rbp", "  call bar", "  ret"] := by
  decide

/-- Claim C3 (corrected): rendering the example under all-false options
produces four lines, but with the label indented by two spaces, the
instructions by four, and a trailing space after the operand-free final
mnemonic. -/
theorem c3_amended_render :
    renderAll demC3 ⟨false, false, false⟩ c3Lines =
      Option.some ["  LBB0:", "    push rbp", "    call bar", "    ret "] :=
  rfl

/-- Counterexample for C1: the line consisting of the single token call
satisfies every hypothesis of the claim, yet classification produces no
Instruction (the constructor panics on the empty operand vector). -/
theorem c1_counterexample :
    ¬ ∃ i : Instruction, classify (fun s => s) "call" Option.none =
      Option.some (Statement.instruction i) := by
  intro h
  obtain ⟨i, hi⟩ := h
  have hc : classify (fun s => s) "call" Option.none = Option.none := rfl
  rw [hc] at hi
  exact Option.noConfusion hi

/-- Claim C1 (amended): on a line that is not a label, directive or comment
and has at least one token, classification yields an Instruction whose
mnemonic is the first token and whose operands are the remaining tokens,
with the first operand demangled exactly when the mnemonic is call — except
that a call line with no operand panics instead of classifying. -/
theorem c1_amended_classify (dem : String → String) (s : String)
    (cur : Option Loc) (m : String) (ops : List String)
    (h1 : strEndsWith s ":" = false) (h2 : strStartsWith s "." = false)
    (h3 : strStartsWith s ";" = false) (ht : tokens s = m :: ops) :
    (m ≠ "call" → classify dem s cur =
      Option.some (Statement.instruction ⟨m, ops, cur⟩)) ∧
    (∀ o rest, ops = o :: rest → classify dem s cur =
      Option.some (Statement.instruction
        ⟨m, (if m = "call" then dem o else o) :: rest, cur⟩)) := by
  have hl := label_new_none (s := s) cur h1
  have hd := directive_new_of_not_dot h2
  have hcm := comment_new_of_not_semi h3
  constructor
  · intro hm
    simp [classify, hl, hd, hcm, Instruction.new, ht, hm]
  · intro o rest ho; subst ho
    by_cases hm : m = "call" <;>
      simp [classify, hl, hd, hcm, Instruction.new, ht, hm]

/-! Helper lemmas about decimal printing and parsing, used for the
format/classify round trip. -/

theorem decDigit_isDigit (d : Nat) : isDigitChar (decDigit d) = true := by
  unfold decDigit
  split_ifs <;> decide

theorem digitVal_decDigit (d : Nat) (h : d < 10) :
    digitVal (decDigit d) = d := by
  interval_cases d <;> decide

theorem digit_not_ws {c : Char} (h : isDigitChar c = true) :
    isWsChar c = false := by
  unfold isDigitChar at h
  unfold isWsChar
  rw [Bool.and_eq_true, decide_eq_true_iff, decide_eq_true_iff] at h
  simp only [Bool.or_eq_false_iff, decide_eq_false_iff_not]
  omega

theorem digit_ne_plus {c : Char} (h : isDigitChar c = true) : c ≠ '+' := by
  intro he
  rw [he] at h
  exact absurd h (by decide)

theorem digit_ne_colon {c : Char} (h : isDigitChar c = true) : c ≠ ':' := by
  intro he
  rw [he] at h
  exact absurd h (by decide)

theorem stripPlus_of_head {c : Char} (cs : List Char) (h : c ≠ '+') :
    stripPlus (c :: cs) = c :: cs := by
  simp [stripPlus, h]

theorem natChars_spec : ∀ fuel n, n ≤ fuel →
    ((natChars fuel n).all isDigitChar = true) ∧
    (∀ a, (natChars fuel n).foldl (fun x c => x * 10 + digitVal c) a =
      a * 10 ^ (natChars fuel n).length + n) := by
  intro fuel
  induction fuel with
  | zero =>
    intro n hn
    have : n = 0 := Nat.le_zero.mp hn
    subst this
    exact ⟨rfl, fun a => by simp [natChars]⟩
  | succ fuel ih =>
    intro n hn
    by_cases hz : n = 0
    · subst hz
      exact ⟨rfl, fun a => by simp [natChars]⟩
    · have hstep : natChars (fuel + 1) n =
        natChars fuel (n / 10) ++ [decDigit (n % 10)] := by
        simp [natChars, hz]
      have hlt : n / 10 < n := Nat.div_lt_self (Nat.pos_of_ne_zero hz)
        (by norm_num)
      have hdiv : n / 10 ≤ fuel := by omega
      obtain ⟨ihd, ihv⟩ := ih (n / 10) hdiv
      constructor
      · rw [hstep, List.all_append, ihd]
        simp [decDigit_isDigit]
      · intro a
        rw [hstep, List.foldl_append]
        simp only [List.foldl, ihv a, List.length_append, List.length_cons,
          List.length_nil]
        rw [digitVal_decDigit (n % 10) (Nat.mod_lt n (by norm_num))]
        have hdm := Nat.div_add_mod n 10
        rw [Nat.zero_add, pow_succ, ← mul_assoc]
        generalize a * 10 ^ (natChars fuel (n / 10)).length = A
        omega

theorem natToChars_all (n : Nat) :
    (natToChars n).all isDigitChar = true := by
  unfold natToChars
  split_ifs with h
  · decide
  · exact (natChars_spec n n le_rfl).1

theorem natToChars_ne_nil (n : Nat) : natToChars n ≠ [] := by
  unfold natToChars
  split_ifs with h
  · simp
  · cases n with
    | zero => exact absurd rfl h
    | succ m =>
      simp only [natChars, h, if_false]
      simp

theorem natToChars_val (n : Nat) :
    (natToChars n).foldl (fun x c => x * 10 + digitVal c) 0 = n := by
  unfold natToChars
  split_ifs with h
  · subst h; decide
  · have := (natChars_spec n n le_rfl).2 0
    simpa using this

theorem parseUsize_natToString (n : Nat) (h : n < 2 ^ 64) :
    parseUsize (natToString n) = Option.some n := by
  have hdata : (natToString n).data = natToChars n := rfl
  have hne := natToChars_ne_nil n
  have hall := natToChars_all n
  unfold parseUsize
  rw [hdata, if_neg hne]
  cases hnc : natToChars n with
  | nil => exact absurd hnc hne
  | cons c cs =>
    have hc : isDigitChar c = true := by
      rw [hnc] at hall
      simp only [List.all_cons, Bool.and_eq_true] at hall
      exact hall.1
    rw [stripPlus_of_head cs (digit_ne_plus hc)]
    rw [if_neg (by simp : ¬(c :: cs = []))]
    rw [← hnc, hall, if_pos rfl]
    have hv : List.foldl (fun a c => a * 10 + digitVal c) 0 (natToChars n) =
        n := natToChars_val n
    simp only [hv]
    rw [if_pos h]

/-! Helper lemmas about the whitespace tokenizer, used for the
format/classify round trip. -/

theorem strDataAppend (a b : String) : (a ++ b).data = a.data ++ b.data := by
  cases a; cases b; rfl

theorem splitWsAux_append_nonws (w : List Char) : ∀ cs acc,
    (∀ c ∈ w, isWsChar c = false) →
    splitWsAux (w ++ cs) acc = splitWsAux cs (w.reverse ++ acc) := by
  induction w with
  | nil => intro cs acc _; simp
  | cons c w ih =>
    intro cs acc h
    have hc : isWsChar c = false := h c (List.mem_cons_self c w)
    have hw : ∀ x ∈ w, isWsChar x = false :=
      fun x hx => h x (List.mem_cons_of_mem c hx)
    simp only [List.cons_append, splitWsAux, hc, Bool.false_eq_true,
      if_false, List.append_eq]
    rw [ih cs (c :: acc) hw]
    simp [List.append_assoc]

theorem splitWsAux_ws_cons (c : Char) (cs acc : List Char)
    (hw : isWsChar c = true) (ha : acc ≠ []) :
    splitWsAux (c :: cs) acc = acc.reverse :: splitWsAux cs [] := by
  simp [splitWsAux, hw, ha]

theorem splitWsAux_word (w : List Char) (hn : w ≠ [])
    (hw : ∀ c ∈ w, isWsChar c = false) : splitWsAux w [] = [w] := by
  have h := splitWsAux_append_nonws w [] [] hw
  simp only [List.append_nil] at h
  rw [h]
  simp [splitWsAux, hn]

theorem splitWsAux_word_cons (w rest : List Char) (hn : w ≠ [])
    (hw : ∀ c ∈ w, isWsChar c = false) :
    splitWsAux (w ++ ' ' :: rest) [] = w :: splitWsAux rest [] := by
  rw [splitWsAux_append_nonws w (' ' :: rest) [] hw]
  rw [splitWsAux_ws_cons ' ' rest (w.reverse ++ []) (by decide)
    (by simp [hn])]
  simp

theorem loc_format_data (l : Loc) (opts : Options) :
    (Loc.format l opts).data =
      ".loc".data ++ ' ' :: (natToChars l.file_index ++ ' ' ::
        (natToChars l.file_line ++ ' ' :: natToChars l.file_column)) := by
  have h1 : (".loc " : String).data = ['.', 'l', 'o', 'c', ' '] := rfl
  have h2 : (" " : String).data = [' '] := rfl
  have h3 : (".loc" : String).data = ['.', 'l', 'o', 'c'] := rfl
  have h4 : ∀ n, (natToString n).data = natToChars n := fun _ => rfl
  simp only [Loc.format, strDataAppend, h1, h2, h3, h4]
  simp [List.append_assoc]

theorem nonws_natToChars (n : Nat) :
    ∀ c ∈ natToChars n, isWsChar c = false := by
  intro c hc
  have hall := natToChars_all n
  rw [List.all_eq_true] at hall
  exact digit_not_ws (hall c hc)

theorem tokens_loc_format (l : Loc) (opts : Options) :
    tokens (Loc.format l opts) =
      [".loc", natToString l.file_index, natToString l.file_line,
       natToString l.file_column] := by
  unfold tokens splitWs
  rw [loc_format_data]
  rw [splitWsAux_word_cons ".loc".data _ (by decide) (by decide)]
  rw [splitWsAux_word_cons (natToChars l.file_index) _
    (natToChars_ne_nil _) (nonws_natToChars _)]
  rw [splitWsAux_word_cons (natToChars l.file_line) _
    (natToChars_ne_nil _) (nonws_natToChars _)]
  rw [splitWsAux_word (natToChars l.file_column)
    (natToChars_ne_nil _) (nonws_natToChars _)]
  rfl

theorem loc_format_startsWith_dot (l : Loc) (opts : Options) :
    strStartsWith (Loc.format l opts) "." = true := by
  show ("." : String).data.isPrefixOf (Loc.format l opts).data = true
  rw [loc_format_data]
  rfl

theorem loc_format_startsWith_loc (l : Loc) (opts : Options) :
    strStartsWith (Loc.format l opts) ".loc" = true := by
  show (".loc" : String).data.isPrefixOf (Loc.format l opts).data = true
  rw [loc_format_data]
  rw [List.isPrefixOf_iff_prefix]
  exact List.prefix_append _ _

theorem loc_format_not_startsWith_file (l : Loc) (opts : Options) :
    strStartsWith (Loc.format l opts) ".file" = false := by
  show (".file" : String).data.isPrefixOf (Loc.format l opts).data = false
  rw [loc_format_data]
  rfl

theorem loc_format_not_endsWith_colon (l : Loc) (opts : Options) :
    strEndsWith (Loc.format l opts) ":" = false := by
  have hne := natToChars_ne_nil l.file_column
  have hd : isDigitChar (List.getLast (natToChars l.file_column) hne) =
      true := by
    have hall := natToChars_all l.file_column
    rw [List.all_eq_true] at hall
    exact hall _ (List.getLast_mem hne)
  have hsplit : natToChars l.file_column =
      (natToChars l.file_column).dropLast ++
        [List.getLast (natToChars l.file_column) hne] :=
    (List.dropLast_append_getLast hne).symm
  show (":" : String).data.isSuffixOf (Loc.format l opts).data = false
  rw [loc_format_data, hsplit]
  have hL : ".loc".data ++ ' ' :: (natToChars l.file_index ++ ' ' ::
      (natToChars l.file_line ++ ' ' ::
        ((natToChars l.file_column).dropLast ++
          [List.getLast (natToChars l.file_column) hne]))) =
      (".loc".data ++ ' ' :: (natToChars l.file_index ++ ' ' ::
        (natToChars l.file_line ++ ' ' ::
          (natToChars l.file_column).dropLast))) ++
        [List.getLast (natToChars l.file_column) hne] := by
    simp [List.append_assoc]
  rw [hL]
  rw [Bool.eq_false_iff]
  intro hsuf
  rw [show (":" : String).data = [':'] from rfl] at hsuf
  rw [List.isSuffixOf_iff_suffix] at hsuf
  obtain ⟨t, ht⟩ := hsuf
  have h1 : (t ++ [':']).getLast? =
      Option.some ':' := List.getLast?_concat t
  rw [ht] at h1
  have h2 : ((".loc".data ++ ' ' :: (natToChars l.file_index ++ ' ' ::
      (natToChars l.file_line ++ ' ' ::
        (natToChars l.file_column).dropLast))) ++
        [List.getLast (natToChars l.file_column) hne]).getLast? =
      Option.some (List.getLast (natToChars l.file_column) hne) :=
    List.getLast?_concat _
  rw [h1] at h2
  exact digit_ne_colon hd (Option.some.inj h2).symm

/-! Helper lemmas for the failure characterization. -/

theorem startsWith_dot_of_file {s : String}
    (h : strStartsWith s ".file" = true) : strStartsWith s "." = true := by
  unfold strStartsWith at h ⊢
  rw [List.isPrefixOf_iff_prefix] at h ⊢
  exact List.IsPrefix.trans ⟨['f', 'i', 'l', 'e'], rfl⟩ h

theorem startsWith_dot_of_loc {s : String}
    (h : strStartsWith s ".loc" = true) : strStartsWith s "." = true := by
  unfold strStartsWith at h ⊢
  rw [List.isPrefixOf_iff_prefix] at h ⊢
  exact List.IsPrefix.trans ⟨['l', 'o', 'c'], rfl⟩ h

theorem file_new_panic_iff {s : String}
    (h : strStartsWith s ".file" = true) :
    File.new s = RustRes.panic ↔ fileMalformed s = true := by
  simp only [File.new, h, if_true, fileMalformed]
  cases hq : (splitOnChar '"' s.data).get? 1 with
  | none => simp
  | some pathCs =>
    cases htk : (tokens s).get? 1 with
    | none => simp
    | some idxTok =>
      cases hp : parseUsize idxTok with
      | none => simp [hp]
      | some idx => simp [hp]

theorem file_new_ne_none {s : String}
    (h : strStartsWith s ".file" = true) : File.new s ≠ RustRes.none := by
  simp only [File.new, h, if_true]
  cases hq : (splitOnChar '"' s.data).get? 1 with
  | none => simp
  | some pathCs =>
    cases htk : (tokens s).get? 1 with
    | none => simp
    | some idxTok =>
      cases hp : parseUsize idxTok with
      | none => simp [hp]
      | some idx => simp [hp]

theorem loc_new_panic_iff {s : String}
    (h : strStartsWith s ".loc" = true) :
    Loc.new s = RustRes.panic ↔ locMalformed s = true := by
  have h0 : parseUsize "0" = Option.some 0 := by decide
  simp only [Loc.new, h, if_true, locMalformed]
  cases htk : tokens s with
  | nil => simp
  | cons t0 ts =>
    cases ts with
    | nil => simp
    | cons t1 ts2 =>
      cases ts2 with
      | nil => simp
      | cons t2 rest =>
        cases ha : parseUsize t1 with
        | none =>
          cases rest with
          | nil => simp [ha]
          | cons t3 r => simp [ha]
        | some a =>
          cases hb : parseUsize t2 with
          | none =>
            cases rest with
            | nil => simp [ha, hb]
            | cons t3 r => simp [ha, hb]
          | some b =>
            cases rest with
            | nil => simp [ha, hb, h0]
            | cons t3 r =>
              cases hc : parseUsize t3 with
              | none => simp [ha, hb, hc]
              | some c => simp [ha, hb, hc]

theorem loc_new_ne_none {s : String}
    (h : strStartsWith s ".loc" = true) : Loc.new s ≠ RustRes.none := by
  have h0 : parseUsize "0" = Option.some 0 := by decide
  simp only [Loc.new, h, if_true]
  cases htk : tokens s with
  | nil => simp
  | cons t0 ts =>
    cases ts with
    | nil => simp
    | cons t1 ts2 =>
      cases ts2 with
      | nil => simp
      | cons t2 rest =>
        cases rest with
        | nil =>
          cases ha : parseUsize t1 <;> cases hb : parseUsize t2 <;>
            simp [ha, hb, h0]
        | cons t3 r =>
          cases ha : parseUsize t1 <;> cases hb : parseUsize t2 <;>
            cases hc : parseUsize t3 <;> simp [ha, hb, hc]

theorem instruction_new_panic_iff (dem : String → String) (s : String)
    (cur : Option Loc) :
    Instruction.new dem s cur = RustRes.panic ↔ instrPanics s = true := by
  simp only [Instruction.new, instrPanics]
  cases htk : tokens s with
  | nil => simp
  | cons m args =>
    by_cases hm : m = "call"
    · cases args with
      | nil => simp [hm]
      | cons a0 r => simp [hm]
    · simp [hm]

theorem instruction_new_ne_none (dem : String → String) (s : String)
    (cur : Option Loc) : Instruction.new dem s cur ≠ RustRes.none := by
  simp only [Instruction.new]
  cases htk : tokens s with
  | nil => simp
  | cons m args =>
    by_cases hm : m = "call"
    · cases args with
      | nil => simp [hm]
      | cons a0 r => simp [hm]
    · simp [hm]

/-- Counterexample for C4: the instruction line consisting of the single
token call is none of the claim's three failure classes (it has a nonzero
token count), yet classification fails on it; and the failure is a plain
abort carrying no structured payload. -/
theorem c4_counterexample :
    classify (fun s => s) "call" Option.none = Option.none ∧
    tokens "call" ≠ [] := ⟨rfl, by decide⟩

/-- Claim C4 (amended): classification failures are aborts (panics of the
fallible constructors, embedded as a none result, with no structured error
value): they occur exactly on non-label file-directive lines with no quote
piece or a missing or unparseable index token, on non-label loc-directive
lines with fewer than three tokens or an unparseable numeric token, on
would-be instruction lines with zero tokens, and also on the call mnemonic
with zero operands. -/
theorem c4_failure_characterization (dem : String → String) (s : String)
    (cur : Option Loc) :
    classify dem s cur = Option.none ↔
      (strEndsWith s ":" = false ∧
        ((strStartsWith s ".file" = true ∧ fileMalformed s = true) ∨
         (strStartsWith s ".file" = false ∧ strStartsWith s ".loc" = true ∧
           locMalformed s = true) ∨
         (strStartsWith s "." = false ∧ strStartsWith s ";" = false ∧
           instrPanics s = true))) := by
  cases he : strEndsWith s ":" with
  | true =>
    simp [classify, Label.new, he]
  | false =>
    have hl := label_new_none (s := s) cur he
    cases hd : strStartsWith s "." with
    | true =>
      have hdn : Directive.new s = (if strStartsWith s "." then
          match File.new s with
          | RustRes.panic => RustRes.panic
          | RustRes.some f => RustRes.some (Directive.file f)
          | RustRes.none =>
            match Loc.new s with
            | RustRes.panic => RustRes.panic
            | RustRes.some l => RustRes.some (Directive.loc l)
            | RustRes.none =>
              match GenericDirective.new s with
              | Option.some g => RustRes.some (Directive.generic g)
              | Option.none => RustRes.panic
        else RustRes.none) := rfl
      cases hf : strStartsWith s ".file" with
      | true =>
        cases hfn : File.new s with
        | panic =>
          have hmal : fileMalformed s = true :=
            (file_new_panic_iff hf).mp hfn
          simp [classify, hl, hdn, hd, hfn, he, hf, hmal]
        | none => exact absurd hfn (file_new_ne_none hf)
        | some f =>
          have hnp : fileMalformed s = false := by
            cases hm : fileMalformed s with
            | false => rfl
            | true =>
              have := (file_new_panic_iff hf).mpr hm
              rw [hfn] at this
              exact RustRes.noConfusion this
          simp [classify, hl, hdn, hd, hfn, he, hf, hnp]
      | false =>
        have hfn : File.new s = RustRes.none := file_new_of_not_file hf
        cases hlc : strStartsWith s ".loc" with
        | true =>
          cases hln : Loc.new s with
          | panic =>
            have hmal : locMalformed s = true :=
              (loc_new_panic_iff hlc).mp hln
            simp [classify, hl, hdn, hd, hfn, hln, he, hf, hlc, hmal]
          | none => exact absurd hln (loc_new_ne_none hlc)
          | some l =>
            have hnp : locMalformed s = false := by
              cases hm : locMalformed s with
              | false => rfl
              | true =>
                have := (loc_new_panic_iff hlc).mpr hm
                rw [hln] at this
                exact RustRes.noConfusion this
            simp [classify, hl, hdn, hd, hfn, hln, he, hf, hlc, hnp]
        | false =>
          have hln : Loc.new s = RustRes.none := loc_new_of_not_loc hlc
          have hg : GenericDirective.new s = Option.some ⟨s⟩ := by
            simp [GenericDirective.new, hd]
          simp [classify, hl, hdn, hd, hfn, hln, hg, he, hf, hlc]
    | false =>
      have hdn : Directive.new s = RustRes.none := directive_new_of_not_dot hd
      have hf : strStartsWith s ".file" = false := by
        cases hfc : strStartsWith s ".file" with
        | false => rfl
        | true => rw [startsWith_dot_of_file hfc] at hd; exact hd
      have hlc : strStartsWith s ".loc" = false := by
        cases hlcc : strStartsWith s ".loc" with
        | false => rfl
        | true => rw [startsWith_dot_of_loc hlcc] at hd; exact hd
      cases hsc : strStartsWith s ";" with
      | true =>
        have hcm : Comment.new s = Option.some ⟨s⟩ := by
          simp [Comment.new, hsc]
        simp [classify, hl, hdn, hcm, he, hf, hlc, hsc]
      | false =>
        have hcm : Comment.new s = Option.none := comment_new_of_not_semi hsc
        cases hin : Instruction.new dem s cur with
        | panic =>
          have hmal : instrPanics s = true :=
            (instruction_new_panic_iff dem s cur).mp hin
          simp [classify, hl, hdn, hcm, hin, he, hf, hlc, hd, hsc, hmal]
        | none => exact absurd hin (instruction_new_ne_none dem s cur)
        | some i =>
          have hnp : instrPanics s = false := by
            cases hm : instrPanics s with
            | false => rfl
            | true =>
              have := (instruction_new_panic_iff dem s cur).mpr hm
              rw [hin] at this
              exact RustRes.noConfusion this
          simp [classify, hl, hdn, hcm, hin, he, hf, hlc, hd, hsc, hnp]

/-- Claim C6 (confirmed): formatting a LocDirective produces the directive
word followed by the three fields separated by single spaces, and
re-classifying any formatted LocDirective returns the same location value
(the fields are usize values, hence below two to the 64th); classifying the
concrete file directive yields the expected File value and formatting it
round-trips through classification as well. -/
theorem c6_roundtrip (dem : String → String) (l : Loc) (opts : Options)
    (cur : Option Loc) (h1 : l.file_index < 2 ^ 64)
    (h2 : l.file_line < 2 ^ 64) (h3 : l.file_column < 2 ^ 64) :
    classify dem (Loc.format l opts) cur =
      Option.some (Statement.directive (Directive.loc l)) ∧
    Loc.format ⟨1, 10, 5⟩ opts = ".loc 1 10 5" ∧
    classify dem ".file 3 \"foo.rs\"" cur =
      Option.some (Statement.directive (Directive.file ⟨"foo.rs", 3⟩)) ∧
    classify dem (File.format ⟨"foo.rs", 3⟩ opts) cur =
      Option.some (Statement.directive (Directive.file ⟨"foo.rs", 3⟩)) := by
  refine ⟨?_, rfl, rfl, rfl⟩
  have hL : Label.new (Loc.format l opts) cur = Option.none :=
    label_new_none cur (loc_format_not_endsWith_colon l opts)
  have hF : File.new (Loc.format l opts) = RustRes.none :=
    file_new_of_not_file (loc_format_not_startsWith_file l opts)
  have hLoc : Loc.new (Loc.format l opts) = RustRes.some l := by
    unfold Loc.new
    rw [if_pos (loc_format_startsWith_loc l opts)]
    rw [tokens_loc_format]
    simp [parseUsize_natToString _ h1, parseUsize_natToString _ h2,
      parseUsize_natToString _ h3]
  have hD : Directive.new (Loc.format l opts) =
      RustRes.some (Directive.loc l) := by
    unfold Directive.new
    rw [if_pos (loc_format_startsWith_dot l opts)]
    simp [hF, hLoc]
  simp [classify, hL, hD]

/-- Witness for C6 at the concrete location of the spec. -/
theorem c6_witness :
    classify (fun s => s) (Loc.format ⟨1, 10, 5⟩ ⟨true, true, true⟩)
      Option.none =
      Option.some (Statement.directive (Directive.loc ⟨1, 10, 5⟩)) ∧
    Loc.format ⟨1, 10, 5⟩ ⟨true, true, true⟩ = ".loc 1 10 5" :=
  ⟨(c6_roundtrip (fun s => s) ⟨1, 10, 5⟩ ⟨true, true, true⟩ Option.none
      (by decide) (by decide) (by decide)).1,
   (c6_roundtrip (fun s => s) ⟨1, 10, 5⟩ ⟨true, true, true⟩ Option.none
      (by decide) (by decide) (by decide)).2.1⟩

/-- Witness for C1: a non-call instruction keeps its tokens; a call
instruction gets its first operand demangled. -/
theorem c1_witness :
    classify (fun x => x ++ "!") "mov eax, ebx" Option.none =
      Option.some (Statement.instruction
        ⟨"mov", ["eax,", "ebx"], Option.none⟩) ∧
    classify (fun x => x ++ "!") "call foo" Option.none =
      Option.some (Statement.instruction ⟨"call", ["foo!"], Option.none⟩) :=
  ⟨(c1_amended_classify (fun x => x ++ "!") "mov eax, ebx" Option.none
      "mov" ["eax,", "ebx"] (by decide) (by decide) (by decide)
      (by decide)).1 (by decide),
   (c1_amended_classify (fun x => x ++ "!") "call foo" Option.none
      "call" ["foo"] (by decide) (by decide) (by decide)
      (by decide)).2 "foo" [] rfl⟩

